import Mathlib

/-!
Shallow embedding of the UCI protocol driver from `src/parse.rs` and
`src/engine.rs` of the `async-uci` repository.

Conventions of the embedding:
* Rust `isize` is modelled as unbounded `Int` (the claims never approach the
  64-bit boundary, and `isize::from_str` overflow is out of scope).
* Rust `Result<T, anyhow::Error>` together with the possibility of a panic
  (`Option::unwrap` on `None`, index out of bounds) is modelled by `PResult`:
  `ok` for `Ok`, `err` for `Err(UCIError::ParseError)` — the only error value
  the parser ever constructs — and `panicked` for a Rust panic.
* `str::split_whitespace` is modelled over ASCII whitespace (the UCI wire
  format is ASCII lines); `line.trim()` in `parse_uci` is dropped because
  every consumer of the trimmed line only ever calls `split_whitespace`,
  which is invariant under trimming.
* The `HashMap<String, Option<T>>` built by `parse_line_values` is modelled
  by the per-word lookup `parse_line_value`; the source inserts exactly the
  requested words and indexes only those, so the map is extensionally this
  function restricted to the word list.
-/

/-- Whitespace test used by the tokenizer (ASCII fragment of Rust
`char::is_whitespace`, which is what UCI lines can contain). -/
def isWS (c : Char) : Bool :=
  c = ' ' || c = '\t' || c = '\n' || c = '\r'

/-- Worker for `splitWS`: `acc` holds the characters of the current token in
reverse order. -/
def splitWSAux : List Char → List Char → List String
  | [], [] => []
  | [], acc => [String.mk acc.reverse]
  | c :: cs, acc =>
    if isWS c then
      match acc with
      | [] => splitWSAux cs []
      | _ => String.mk acc.reverse :: splitWSAux cs []
    else
      splitWSAux cs (c :: acc)

/-- Model of Rust `str::split_whitespace().collect()`: maximal runs of
non-whitespace characters, in order, with no empty tokens. -/
def splitWS (s : String) : List String :=
  splitWSAux s.data []

/-- Digit run to number, most significant first (the accumulator form of
integer parsing). -/
def digitsToNat (cs : List Char) : Nat :=
  cs.foldl (fun acc c => acc * 10 + (c.toNat - '0'.toNat)) 0

/-- Parse a nonempty all-digit character run; `none` otherwise. -/
def parseNatDigits (cs : List Char) : Option Nat :=
  if cs.isEmpty then none
  else if cs.all Char.isDigit then some (digitsToNat cs) else none

/-- Model of Rust `isize::from_str`: optional `+`/`-` sign followed by a
nonempty digit run; anything else fails.  Overflow is not modelled. -/
def parseIsize (s : String) : Option Int :=
  match s.data with
  | '+' :: rest => (parseNatDigits rest).map Int.ofNat
  | '-' :: rest => (parseNatDigits rest).map (fun n => -(n : Int))
  | cs => (parseNatDigits cs).map Int.ofNat

/-- Model of Rust `bool::from_str`: exactly the strings `true` and `false`. -/
def parseBool : String → Option Bool
  | "true" => some true
  | "false" => some false
  | _ => none

/-- Model of Rust `String::from_str`, which is infallible. -/
def parseStr (s : String) : Option String :=
  some s

/-- Payload of the `UCI::Info` variant of `parse.rs` (all fields optional at
the protocol level). -/
structure InfoFields where
  cp : Option Int
  mate : Option Int
  depth : Option Int
  seldepth : Option Int
  nodes : Option Int
  time : Option Int
  multipv : Option Int
  pv : Option (List String)
deriving DecidableEq, Repr

/-- Alias for the string type, needed inside `OptionType.*` definitions where
the bare name `String` resolves to the `OptionType.String` constructor. -/
abbrev Str := String

/-- Possible types for engine options (`OptionType` in `parse.rs`). -/
inductive OptionType where
  | Check (default : Bool)
  | Spin (default min max : Int)
  | Combo (default : String) (options : List String)
  | Button
  | String (default : String)
deriving DecidableEq, Repr

/-- Supported UCI commands (`UCI` in `parse.rs`). -/
inductive UCI where
  | UciOk
  | ReadyOk
  | Info (fields : InfoFields)
  | Option (name : String) (opt_type : OptionType)
deriving DecidableEq, Repr

/-- Outcome of running a fallible Rust function: `ok` is `Ok`, `err` is
`Err(UCIError::ParseError)` (the only error the parser constructs), and
`panicked` records that the Rust code would panic (`unwrap` on `None` or an
out-of-bounds index). -/
inductive PResult (α : Type) where
  | ok (a : α)
  | err
  | panicked
deriving DecidableEq, Repr

/-- Model of one lookup in the map built by `parse_line_values` in
`parse.rs`: find the first occurrence of `word` among the tokens; if the
following token exists, the entry is its parse (`none` on parse failure); if
`word` is the final token the entry is `some dflt` (Rust `T::default()`);
if `word` does not occur the entry is `none`. -/
def parse_line_value {α : Type} (parse : String → Option α) (dflt : α)
    (toks : List String) (word : String) : Option α :=
  match toks.findIdx? (fun t => t == word) with
  | none => none
  | some ix =>
    match toks.get? (ix + 1) with
    | some v => parse v
    | none => some dflt

/-- `OptionType::new_check` from `parse.rs`: `values["default"].unwrap()`
panics when the entry is `None`. -/
def OptionType.new_check (line : Str) : PResult OptionType :=
  match parse_line_value parseBool false (splitWS line) "default" with
  | some b => .ok (.Check b)
  | none => .panicked

/-- `OptionType::new_spin` from `parse.rs`: the three `unwrap`s on
`default`, `min`, `max` in order, each panicking on `None`. -/
def OptionType.new_spin (line : Str) : PResult OptionType :=
  match parse_line_value parseIsize 0 (splitWS line) "default" with
  | none => .panicked
  | some d =>
    match parse_line_value parseIsize 0 (splitWS line) "min" with
    | none => .panicked
    | some mn =>
      match parse_line_value parseIsize 0 (splitWS line) "max" with
      | none => .panicked
      | some mx => .ok (.Spin d mn mx)

/-- The option-collection loop of `OptionType::new_combo`: for each index
`ix` with `line[ix] == "var"` push `line[ix + 1]`; the index is unchecked in
the source, so a trailing `var` is a panic (index out of bounds). -/
def collectVars : List String → PResult (List String)
  | [] => .ok []
  | t :: rest =>
    if t == "var" then
      match rest with
      | [] => .panicked
      | v :: _ =>
        match collectVars rest with
        | .ok vs => .ok (v :: vs)
        | .err => .err
        | .panicked => .panicked
    else
      collectVars rest

/-- `OptionType::new_combo` from `parse.rs`: the collection loop runs first
(and may panic on a trailing `var`), then `values["default"].unwrap()`
panics when `default` is absent. -/
def OptionType.new_combo (line : Str) : PResult OptionType :=
  match collectVars (splitWS line) with
  | .ok opts =>
    match parse_line_value parseStr "" (splitWS line) "default" with
    | some d => .ok (.Combo d opts)
    | none => .panicked
  | .err => .err
  | .panicked => .panicked

/-- `OptionType::new_string` from `parse.rs`. -/
def OptionType.new_string (line : Str) : PResult OptionType :=
  match parse_line_value parseStr "" (splitWS line) "default" with
  | some d => .ok (.String d)
  | none => .panicked

/-- `OptionType::new` from `parse.rs`: dispatch on the `type` value; an
unknown type is `Err(UCIError::ParseError)`. -/
def OptionType.new (opt_type : Str) (line : Str) : PResult OptionType :=
  if opt_type = "check" then OptionType.new_check line
  else if opt_type = "spin" then OptionType.new_spin line
  else if opt_type = "combo" then OptionType.new_combo line
  else if opt_type = "button" then .ok .Button
  else if opt_type = "string" then OptionType.new_string line
  else .err

/-- `parse_pv` from `parse.rs`: consume tokens up to and including the first
`pv`, then collect every remaining token; `none` when no `pv` occurs. -/
def parse_pv (line : String) : Option (List String) :=
  match (splitWS line).findIdx? (fun t => t == "pv") with
  | none => none
  | some ix => some ((splitWS line).drop (ix + 1))

/-- The field contents of the `UCI::Info` event built by `parse_info_line`
in `parse.rs` (which always returns `Ok`). -/
def parse_info_fields (line : String) : InfoFields :=
  { cp := parse_line_value parseIsize 0 (splitWS line) "cp"
    mate := parse_line_value parseIsize 0 (splitWS line) "mate"
    depth := parse_line_value parseIsize 0 (splitWS line) "depth"
    seldepth := parse_line_value parseIsize 0 (splitWS line) "seldepth"
    nodes := parse_line_value parseIsize 0 (splitWS line) "nodes"
    time := parse_line_value parseIsize 0 (splitWS line) "time"
    multipv := parse_line_value parseIsize 0 (splitWS line) "multipv"
    pv := parse_pv line }

/-- `parse_info_line` from `parse.rs`: infallible (`parse_line_values` never
returns `Err` and the unparsed-field case is `None`, not an error). -/
def parse_info_line (line : String) : PResult UCI :=
  .ok (.Info (parse_info_fields line))

/-- `parse_option_line` from `parse.rs`: the `unwrap`s on the `name` and
`type` entries panic when absent, then `OptionType::new` may fail with
`ParseError` (propagated with `?`) or panic. -/
def parse_option_line (line : String) : PResult UCI :=
  match parse_line_value parseStr "" (splitWS line) "name" with
  | none => .panicked
  | some nm =>
    match parse_line_value parseStr "" (splitWS line) "type" with
    | none => .panicked
    | some ty =>
      match OptionType.new ty line with
      | .ok t => .ok (.Option nm t)
      | .err => .err
      | .panicked => .panicked

/-- `parse_uci` from `parse.rs`: dispatch on the first whitespace token
(`unwrap_or("")` on an all-whitespace line); any other leading token is
`Err(UCIError::ParseError)`. -/
def parse_uci (line : String) : PResult UCI :=
  if (splitWS line).headD "" = "info" then parse_info_line line
  else if (splitWS line).headD "" = "uciok" then .ok .UciOk
  else if (splitWS line).headD "" = "readyok" then .ok .ReadyOk
  else if (splitWS line).headD "" = "option" then parse_option_line line
  else .err

/-- Engine evaluation info (`Evaluation` in `engine.rs`): the merged snapshot
has no optional fields. -/
structure Evaluation where
  score : Int
  mate : Int
  depth : Int
  nodes : Int
  seldepth : Int
  multipv : Int
  pv : List String
  time : Int
deriving DecidableEq, Repr

/-- `Evaluation::default` from `engine.rs`: evaluation with empty values. -/
def Evaluation.default : Evaluation :=
  { score := 0, mate := 0, depth := 0, nodes := 0, seldepth := 0
    multipv := 0, pv := [], time := 0 }

/-- The `Info` arm of `EngineState::process_stdout` in `engine.rs`: merge an
incoming partial update into the previous snapshot (or into
`Evaluation::default()` when no snapshot exists yet), each field taken from
the update when present (`unwrap_or`) and from the previous snapshot
otherwise. -/
def applyInfo (prev : Option Evaluation) (f : InfoFields) : Evaluation :=
  { score := f.cp.getD (prev.getD Evaluation.default).score
    mate := f.mate.getD (prev.getD Evaluation.default).mate
    depth := f.depth.getD (prev.getD Evaluation.default).depth
    nodes := f.nodes.getD (prev.getD Evaluation.default).nodes
    seldepth := f.seldepth.getD (prev.getD Evaluation.default).seldepth
    multipv := f.multipv.getD (prev.getD Evaluation.default).multipv
    pv := f.pv.getD (prev.getD Evaluation.default).pv
    time := f.time.getD (prev.getD Evaluation.default).time }

/-- Possible engine states (`EngineStateEnum` in `engine.rs`). -/
inductive EngineStateEnum where
  | Uninitialized
  | Initialized
  | Ready
  | Thinking
deriving DecidableEq, Repr

/-- `EngineOption` from `engine.rs`. -/
structure EngineOption where
  name : String
  opt_type : OptionType
deriving DecidableEq, Repr

/-- The shared engine state of `engine.rs` (`EngineState`): lifecycle phase,
latest merged evaluation snapshot (or none yet), and accumulated options.
The `Arc<Mutex<...>>` cells are modelled as plain fields: the background
reader is the sole writer and every access in the source is a whole-value
read or write under the lock, so no torn value is representable. -/
structure EngState where
  state : EngineStateEnum
  evaluation : Option Evaluation
  options : List EngineOption
deriving DecidableEq, Repr

/-- Effect of one parsed event on the shared state: the four `Ok` arms of the
match in `EngineState::process_stdout`. -/
def applyEvent (st : EngState) (u : UCI) : EngState :=
  match u with
  | .UciOk => { st with state := .Initialized }
  | .ReadyOk => { st with state := .Ready }
  | .Info f => { st with evaluation := some (applyInfo st.evaluation f) }
  | .Option nm t => { st with options := st.options ++ [⟨nm, t⟩] }

/-- The reader loop of `EngineState::process_stdout` applied to a finite
list of stdout lines: parse each line, apply `Ok` events, skip `Err` lines
(the catch-all `_ => continue`), and stop dead on a parser panic (the panic
unwinds the reader task; no further line is processed).  The boolean records
whether the reader is still alive. -/
def run_reader (st : EngState) : List String → EngState × Bool
  | [] => (st, true)
  | l :: ls =>
    match parse_uci l with
    | .ok u => run_reader (applyEvent st u) ls
    | .err => run_reader st ls
    | .panicked => (st, false)

/-- `Engine::get_evaluation` from `engine.rs`: return a clone of the current
merged snapshot, or none when no `info` line has been observed. -/
def get_evaluation (st : EngState) : Option Evaluation :=
  st.evaluation

/-- The error produced when a state wait exhausts its retries
(`bail!("engine didn't respond with ...")` in `Engine::expect_state`); the
spec names it ProtocolTimeout. -/
inductive EngError where
  | ProtocolTimeout
deriving DecidableEq, Repr

/-- The retry loop of `Engine::expect_state`: at poll `i` read the shared
phase (`obs i`, the value the lock read returns at that attempt); return ok
on a match, otherwise sleep and retry while fuel remains, and fail with the
timeout error when the attempt budget is exhausted. -/
def expect_state_aux (obs : Nat → EngineStateEnum) (exp : EngineStateEnum) :
    Nat → Nat → Except EngError Unit
  | _, 0 => .error .ProtocolTimeout
  | i, fuel + 1 =>
    if obs i = exp then .ok () else expect_state_aux obs exp (i + 1) fuel

/-- `Engine::expect_state` from `engine.rs`: ten attempts, starting at the
first poll instant. -/
def expect_state (obs : Nat → EngineStateEnum) (exp : EngineStateEnum) :
    Except EngError Unit :=
  expect_state_aux obs exp 0 10

/-- `Engine::start_uci` from `engine.rs`: send `uci`, wait for phase
`Initialized` (`expect_uciok`), send `isready`, wait for phase `Ready`
(`expect_readyok`).  The two `send_command` calls only write to the child
stdin and never touch the shared phase; they are modelled as no-ops (the
write-failure path is orthogonal to the wait policy).  `obs1` and `obs2` are
the phase values observed by the successive polls of the two waits. -/
def start_uci (obs1 obs2 : Nat → EngineStateEnum) : Except EngError Unit :=
  match expect_state obs1 .Initialized with
  | .error e => .error e
  | .ok _ => expect_state obs2 .Ready

/-- Claim-side transliteration of "the tokens immediately following each
`var` token, in encounter order": for each index `ix` of the token list, if
the token at `ix` is `var`, take the token at `ix + 1`. -/
def varFollowers (toks : List String) : List String :=
  (List.range toks.length).filterMap
    (fun ix => if toks.get? ix = some "var" then toks.get? (ix + 1) else none)

/-- An Info event in which exactly the fields `depth` and `nodes` are
present and every other field is absent. -/
def depthNodesEvent (d n : Int) : InfoFields :=
  { cp := none, mate := none, depth := some d, seldepth := none
    nodes := some n, time := none, multipv := none, pv := none }

/-- Projection of the `Info` field named by one of the seven scanned
keywords. -/
def infoField (f : InfoFields) : String → Option Int
  | "cp" => f.cp
  | "mate" => f.mate
  | "depth" => f.depth
  | "seldepth" => f.seldepth
  | "nodes" => f.nodes
  | "time" => f.time
  | "multipv" => f.multipv
  | _ => none

theorem parse_line_value_of_not_found {α : Type} (parse : String → Option α)
    (dflt : α) (toks : List String) (word : String)
    (h : toks.findIdx? (fun t => t == word) = none) :
    parse_line_value parse dflt toks word = none := by
  unfold parse_line_value
  rw [h]

theorem parse_line_value_of_next {α : Type} (parse : String → Option α)
    (dflt : α) (toks : List String) (word : String) (ix : Nat) (v : String)
    (h1 : toks.findIdx? (fun t => t == word) = some ix)
    (h2 : toks.get? (ix + 1) = some v) :
    parse_line_value parse dflt toks word = parse v := by
  unfold parse_line_value
  rw [h1]
  dsimp only
  rw [h2]

theorem parse_line_value_of_trailing {α : Type} (parse : String → Option α)
    (dflt : α) (toks : List String) (word : String) (ix : Nat)
    (h1 : toks.findIdx? (fun t => t == word) = some ix)
    (h2 : toks.get? (ix + 1) = none) :
    parse_line_value parse dflt toks word = some dflt := by
  unfold parse_line_value
  rw [h1]
  dsimp only
  rw [h2]

theorem varFollowers_nil : varFollowers [] = [] := by
  simp [varFollowers]

theorem varFollowers_cons (t : String) (rest : List String) :
    varFollowers (t :: rest) =
      (if t = "var" then (rest.get? 0).toList else []) ++ varFollowers rest := by
  unfold varFollowers
  rw [List.length_cons, List.range_succ_eq_map, List.filterMap_cons,
    List.filterMap_map]
  have hfun :
      ((fun ix => if (t :: rest).get? ix = some "var"
          then (t :: rest).get? (ix + 1) else none) ∘ Nat.succ) =
        fun ix => if rest.get? ix = some "var" then rest.get? (ix + 1) else none := by
    funext ix
    simp [Function.comp, List.get?_cons_succ]
  rw [hfun]
  by_cases h : t = "var"
  · simp only [List.get?_cons_zero, List.get?_cons_succ, h, if_pos rfl]
    cases h0 : rest.get? 0 <;> simp [Option.toList]
  · have : ¬ (some t = some "var") := by simp [h]
    simp only [List.get?_cons_zero, if_neg this, if_neg h, List.nil_append]

theorem collectVars_eq_varFollowers :
    ∀ toks : List String,
      (∀ ix, ix < toks.length → toks.get? ix = some "var" →
        ix + 1 < toks.length) →
      collectVars toks = .ok (varFollowers toks) := by
  intro toks
  induction toks with
  | nil =>
    intro _
    simp [collectVars, varFollowers_nil]
  | cons t rest ih =>
    intro h
    rw [varFollowers_cons]
    by_cases ht : t = "var"
    · subst ht
      have h0 : (0 : Nat) + 1 < ("var" :: rest).length :=
        h 0 (by simp) (by simp)

      cases rest with
      | nil => simp at h0
      | cons v rs =>
        have hrest : ∀ ix, ix < (v :: rs).length →
            (v :: rs).get? ix = some "var" → ix + 1 < (v :: rs).length := by
          intro ix hlt hget
          have hh := h (ix + 1) (by simpa using Nat.succ_lt_succ hlt)
            (by simpa using hget)
          simpa using hh
        have hrec := ih hrest
        rw [show collectVars ("var" :: v :: rs) =
            (match collectVars (v :: rs) with
              | PResult.ok vs => PResult.ok (v :: vs)
              | PResult.err => PResult.err
              | PResult.panicked => PResult.panicked) from rfl]
        rw [hrec]
        simp
    · have hrest : ∀ ix, ix < rest.length →
          rest.get? ix = some "var" → ix + 1 < rest.length := by
        intro ix hlt hget
        have hh := h (ix + 1) (by simpa using Nat.succ_lt_succ hlt)
          (by simpa using hget)
        simpa using hh
      have hbeq : (t == "var") = false := by
        simp [ht]
      simp [collectVars, hbeq, ht, ih hrest]

theorem parse_option_line_ok (l : String) (u : UCI)
    (h : parse_option_line l = .ok u) : ∃ nm t, u = UCI.Option nm t := by
  unfold parse_option_line at h
  rcases h1 : parse_line_value parseStr "" (splitWS l) "name" with _ | nm <;>
    rw [h1] at h <;> dsimp only at h
  · exact PResult.noConfusion h
  rcases h2 : parse_line_value parseStr "" (splitWS l) "type" with _ | ty <;>
    rw [h2] at h <;> dsimp only at h
  · exact PResult.noConfusion h
  rcases h3 : OptionType.new ty l with t | _ | _ <;>
    rw [h3] at h <;> dsimp only at h
  · injection h with h4
    exact ⟨nm, t, h4.symm⟩
  · exact PResult.noConfusion h
  · exact PResult.noConfusion h

theorem parse_uci_ok_readyok (l : String)
    (h : parse_uci l = .ok .ReadyOk) : (splitWS l).headD "" = "readyok" := by
  unfold parse_uci at h
  split_ifs at h with h1 h2 h3 h4
  · unfold parse_info_line at h
    injection h with h5
    exact UCI.noConfusion h5
  · injection h with h5
    exact UCI.noConfusion h5
  · exact h3
  · obtain ⟨nm, t, ht⟩ := parse_option_line_ok l _ h
    exact UCI.noConfusion ht

theorem run_reader_keeps_initialized :
    ∀ (ls : List String) (st : EngState),
      (∀ l ∈ ls, (splitWS l).headD "" ≠ "readyok") →
      st.state = .Initialized →
      ((run_reader st ls).1).state = .Initialized := by
  intro ls
  induction ls with
  | nil =>
    intro st _ hst
    simpa [run_reader] using hst
  | cons l ls ih =>
    intro st h hst
    have hl : (splitWS l).headD "" ≠ "readyok" := h l (by simp)
    have hls : ∀ x ∈ ls, (splitWS x).headD "" ≠ "readyok" :=
      fun x hx => h x (by simp [hx])
    unfold run_reader
    rcases hp : parse_uci l with u | _ | _
    · cases u with
      | UciOk => exact ih _ hls (by simp [applyEvent])
      | ReadyOk => exact absurd (parse_uci_ok_readyok l hp) hl
      | Info f => exact ih _ hls (by simp [applyEvent, hst])
      | Option nm t => exact ih _ hls (by simp [applyEvent, hst])
    · exact ih st hls hst
    · simpa using hst

theorem expect_state_aux_never (obs : Nat → EngineStateEnum)
    (exp : EngineStateEnum) (h : ∀ j, obs j ≠ exp) :
    ∀ fuel i, expect_state_aux obs exp i fuel = .error .ProtocolTimeout := by
  intro fuel
  induction fuel with
  | zero => intro i; rfl
  | succ n ihn =>
    intro i
    unfold expect_state_aux
    rw [if_neg (h i)]
    exact ihn (i + 1)

theorem expect_state_never (obs : Nat → EngineStateEnum)
    (exp : EngineStateEnum) (h : ∀ j, obs j ≠ exp) :
    expect_state obs exp = .error .ProtocolTimeout :=
  expect_state_aux_never obs exp h 10 0

/-- C7: decoding the exact line
`info depth 1 seldepth 1 multipv 1 score cp 59 nodes 56 nps 56000 hashfull 0 tbhits 0 time 1 pv d6f4 e3f4`
yields an Info event with cp=59, depth=1, seldepth=1, multipv=1, nodes=56,
time=1, pv=[d6f4, e3f4], and mate absent. -/
theorem info_line_scenario :
    parse_uci "info depth 1 seldepth 1 multipv 1 score cp 59 nodes 56 nps 56000 hashfull 0 tbhits 0 time 1 pv d6f4 e3f4" =
      .ok (.Info { cp := some 59, mate := none, depth := some 1,
                   seldepth := some 1, nodes := some 56, time := some 1,
                   multipv := some 1, pv := some ["d6f4", "e3f4"] }) := by
  decide

/-- C8: decoding the exact line
`option name Hash type spin default 16 min 1 max 33554432` yields an Option
event with name `Hash` and type Spin with default 16, min 1, max 33554432. -/
theorem option_spin_scenario :
    parse_uci "option name Hash type spin default 16 min 1 max 33554432" =
      .ok (.Option "Hash" (.Spin 16 1 33554432)) := by
  decide

/-- C3: on `option name Hash type spin` (a known type with the required
`default` sub-field missing) the line decode does not return a ParseError to
its caller: `values["default"].unwrap()` in `OptionType::new_spin` is an
`unwrap` of `None`, i.e. a Rust panic, which is a crash of the reader task
and a distinct outcome from `Err(UCIError::ParseError)`. -/
theorem spin_missing_default_panics :
    parse_uci "option name Hash type spin" = .panicked ∧
      (PResult.panicked : PResult UCI) ≠ .err := by
  exact ⟨by decide, by decide⟩

/-- C2: applying an Info event carrying exactly `depth` and `nodes` to a
prior snapshot `s` (the merge performed by the `Info` arm of
`EngineState::process_stdout`) sets exactly those two fields to the event
values and keeps `score` (cp), `mate`, `seldepth`, `time`, `multipv` and the
principal variation of `s`. -/
theorem merge_depth_nodes_only (s : Evaluation) (d n : Int) :
    (applyInfo (some s) (depthNodesEvent d n)).depth = d ∧
    (applyInfo (some s) (depthNodesEvent d n)).nodes = n ∧
    (applyInfo (some s) (depthNodesEvent d n)).score = s.score ∧
    (applyInfo (some s) (depthNodesEvent d n)).mate = s.mate ∧
    (applyInfo (some s) (depthNodesEvent d n)).seldepth = s.seldepth ∧
    (applyInfo (some s) (depthNodesEvent d n)).time = s.time ∧
    (applyInfo (some s) (depthNodesEvent d n)).multipv = s.multipv ∧
    (applyInfo (some s) (depthNodesEvent d n)).pv = s.pv := by
  refine ⟨?_, ?_, ?_, ?_, ?_, ?_, ?_, ?_⟩ <;> simp [applyInfo, depthNodesEvent]

/-- C5: when the token scan finds no `pv` token the principal-variation
field of the decoded Info event is `none`; when the scanned `pv` token (the
first occurrence) sits at index `ix`, the field collects every token after
it in encounter order, and when that token is the final one (zero tokens
follow it) the field is `some []` — a value distinct from `none`. -/
theorem pv_absent_vs_empty (line : String) :
    ((splitWS line).findIdx? (fun t => t == "pv") = none →
      (parse_info_fields line).pv = none) ∧
    (∀ ix, (splitWS line).findIdx? (fun t => t == "pv") = some ix →
      (parse_info_fields line).pv = some ((splitWS line).drop (ix + 1)) ∧
      (ix + 1 = (splitWS line).length →
        (parse_info_fields line).pv = some [])) ∧
    (none : Option (List String)) ≠ some [] := by
  refine ⟨?_, ?_, by simp⟩
  · intro h
    simp [parse_info_fields, parse_pv, h]
  · intro ix h
    have hdrop : (parse_info_fields line).pv =
        some ((splitWS line).drop (ix + 1)) := by
      simp [parse_info_fields, parse_pv, h]
    refine ⟨hdrop, fun hlen => ?_⟩
    have hnil : (splitWS line).drop (ix + 1) = [] := by
      rw [hlen]
      exact List.drop_length _
    rw [hdrop, hnil]

/-- C5 witness: on `info pv` the scan finds `pv` at index 1, the final
token, and the decoded field is the empty sequence. -/
theorem pv_absent_vs_empty_witness :
    (parse_info_fields "info pv").pv = some [] :=
  ((pv_absent_vs_empty "info pv").2.1 1 (by decide)).2 (by decide)

/-- C4 counterexample: in the line `info depth` the keyword `depth` occurs
with no following token, yet the decoded field is present with value 0
(Rust `T::default()`), not absent as the claim states. -/
theorem info_trailing_keyword_cex :
    (parse_info_fields "info depth").depth = some 0 ∧
      (parse_info_fields "info depth").depth ≠ none := by
  exact ⟨by decide, by decide⟩

/-- C4 amended: for each of the seven scanned keywords, if the keyword does
not occur the field is absent; if it occurs and a token follows, the field
is the integer parse of that token (absent exactly when the parse fails);
if it occurs as the final token (no following token) the field is present
with the default value 0, not absent. -/
theorem info_keyword_scan_amended (line kw : String)
    (hkw : kw = "cp" ∨ kw = "depth" ∨ kw = "nodes" ∨ kw = "seldepth" ∨
      kw = "mate" ∨ kw = "time" ∨ kw = "multipv") :
    ((splitWS line).findIdx? (fun t => t == kw) = none →
      infoField (parse_info_fields line) kw = none) ∧
    (∀ ix v, (splitWS line).findIdx? (fun t => t == kw) = some ix →
      (splitWS line).get? (ix + 1) = some v →
      infoField (parse_info_fields line) kw = parseIsize v) ∧
    (∀ ix, (splitWS line).findIdx? (fun t => t == kw) = some ix →
      (splitWS line).get? (ix + 1) = none →
      infoField (parse_info_fields line) kw = some 0) := by
  rcases hkw with rfl | rfl | rfl | rfl | rfl | rfl | rfl <;>
    refine ⟨fun h => ?_, fun ix v h1 h2 => ?_, fun ix h1 h2 => ?_⟩ <;>
    simp only [infoField, parse_info_fields] <;>
    first
      | exact parse_line_value_of_not_found _ _ _ _ h
      | exact parse_line_value_of_next _ _ _ _ _ _ h1 h2
      | exact parse_line_value_of_trailing _ _ _ _ _ h1 h2

/-- C4 witness: in `info depth 3` the keyword `depth` is found at index 1,
the next token is `3`, and the decoded field is its integer parse. -/
theorem info_keyword_scan_amended_witness :
    infoField (parse_info_fields "info depth 3") "depth" = parseIsize "3" :=
  (info_keyword_scan_amended "info depth 3" "depth"
    (by decide)).2.1 1 "3" (by decide) (by decide)

/-- C1 counterexample: a line with an unknown leading token decodes to
`Err(UCIError::ParseError)` — the very same value a malformed known command
(here an `option` line with an unknown type) produces — so there is no
"unrecognized" outcome distinct from ParseError. -/
theorem unrecognized_is_parse_error_cex :
    parse_uci "bestmove e2e4" = .err ∧
      parse_uci "option name Foo type wat" = .err ∧
      parse_uci "bestmove e2e4" = parse_uci "option name Foo type wat" := by
  exact ⟨by decide, by decide, by decide⟩

/-- C1 amended: for every line whose first whitespace-delimited token is
none of `uciok`, `readyok`, `info`, `option`, `parse_uci` returns
`Err(UCIError::ParseError)` (not a distinct "unrecognized" value); the
background reader's catch-all arm skips such a line and continues with its
state untouched, so the line is still silently ignored and never a hard
failure of the reader. -/
theorem parse_uci_unknown_token (line : String)
    (h1 : (splitWS line).headD "" ≠ "info")
    (h2 : (splitWS line).headD "" ≠ "uciok")
    (h3 : (splitWS line).headD "" ≠ "readyok")
    (h4 : (splitWS line).headD "" ≠ "option") :
    parse_uci line = .err ∧
      ∀ st : EngState, run_reader st [line] = (st, true) := by
  have hp : parse_uci line = .err := by
    unfold parse_uci
    rw [if_neg h1, if_neg h2, if_neg h3, if_neg h4]
  refine ⟨hp, fun st => ?_⟩
  simp only [run_reader, hp]

/-- C1 witness: `bestmove d2d4` has an unknown leading token; decoding gives
ParseError and the reader skips it. -/
theorem parse_uci_unknown_token_witness :
    parse_uci "bestmove d2d4" = .err ∧
      ∀ st : EngState, run_reader st ["bestmove d2d4"] = (st, true) :=
  parse_uci_unknown_token "bestmove d2d4"
    (by decide) (by decide) (by decide) (by decide)

/-- C9: the combo choice collection is total exactly under the precondition
that every `var` token has a following token, in which case it returns the
tokens immediately following each `var` in order; on a line whose final
token is `var` the unchecked index `ix + 1` is out of bounds and the panic
branch is reached (shown both for the loop and through `parse_uci`). -/
theorem combo_var_collection :
    (∀ toks : List String,
      (∀ ix, ix < toks.length → toks.get? ix = some "var" →
        ix + 1 < toks.length) →
      collectVars toks = .ok (varFollowers toks)) ∧
    collectVars (splitWS "option name X type combo default a var") =
      .panicked ∧
    parse_uci "option name X type combo default a var" = .panicked := by
  exact ⟨collectVars_eq_varFollowers, by decide, by decide⟩

/-- C9 witness: on a token list where each `var` is followed by a token the
loop succeeds with exactly the followers, in order. -/
theorem combo_var_collection_witness :
    collectVars ["var", "a", "var", "b"] =
      .ok (varFollowers ["var", "a", "var", "b"]) :=
  combo_var_collection.1 ["var", "a", "var", "b"] (by decide)

/-- C10: applying the first Info event while no snapshot exists merges into
`Evaluation::default()`, so every absent field is stored as the default (0
for numeric fields, the empty sequence for the principal variation), and
`get_evaluation` then returns that snapshot; an event with `cp` absent and
one with `cp` reported as 0 produce identical stored snapshots, so a caller
cannot distinguish them. -/
theorem first_info_defaults (st : EngState) (f : InfoFields)
    (h : st.evaluation = none) :
    get_evaluation (applyEvent st (.Info f)) = some (applyInfo none f) ∧
    (f.cp = none → (applyInfo none f).score = 0) ∧
    (f.mate = none → (applyInfo none f).mate = 0) ∧
    (f.depth = none → (applyInfo none f).depth = 0) ∧
    (f.nodes = none → (applyInfo none f).nodes = 0) ∧
    (f.seldepth = none → (applyInfo none f).seldepth = 0) ∧
    (f.multipv = none → (applyInfo none f).multipv = 0) ∧
    (f.time = none → (applyInfo none f).time = 0) ∧
    (f.pv = none → (applyInfo none f).pv = []) ∧
    get_evaluation (applyEvent st (.Info { f with cp := none })) =
      get_evaluation (applyEvent st (.Info { f with cp := some 0 })) := by
  refine ⟨?_, ?_, ?_, ?_, ?_, ?_, ?_, ?_, ?_, ?_⟩ <;>
    first
      | (intro h0; simp [applyInfo, h0, Evaluation.default])
      | (simp [get_evaluation, applyEvent, h, applyInfo, Evaluation.default])

/-- C10 witness: the first Info event carrying only cp=7 merged into the
empty state yields the default-filled snapshot. -/
theorem first_info_defaults_witness :
    get_evaluation (applyEvent ⟨.Uninitialized, none, []⟩
        (.Info { cp := some 7, mate := none, depth := none, seldepth := none,
                 nodes := none, time := none, multipv := none, pv := none })) =
      some (applyInfo none { cp := some 7, mate := none, depth := none,
                             seldepth := none, nodes := none, time := none,
                             multipv := none, pv := none }) :=
  (first_info_defaults ⟨.Uninitialized, none, []⟩ _ rfl).1

/-- C6: if none of the engine output lines observed before the polls is a
`readyok` line, the shared phase computed by the reader from an
`Initialized` start is still `Initialized` at every poll (the failing wait
writes nothing), and `start_uci` terminates with the timeout error after
its bounded retries, whatever the first wait observes. -/
theorem start_uci_timeout_no_readyok (obs1 : Nat → EngineStateEnum)
    (lines : Nat → List String) (ev : Option Evaluation)
    (opts : List EngineOption)
    (hnever : ∀ i, ∀ l ∈ lines i, (splitWS l).headD "" ≠ "readyok") :
    start_uci obs1
        (fun i => ((run_reader ⟨.Initialized, ev, opts⟩ (lines i)).1).state) =
      .error .ProtocolTimeout ∧
    ∀ i, ((run_reader ⟨.Initialized, ev, opts⟩ (lines i)).1).state =
      .Initialized := by
  have hph : ∀ i,
      ((run_reader ⟨.Initialized, ev, opts⟩ (lines i)).1).state =
        .Initialized :=
    fun i => run_reader_keeps_initialized (lines i) _ (hnever i) rfl
  refine ⟨?_, hph⟩
  have h2 : expect_state
      (fun i => ((run_reader ⟨.Initialized, ev, opts⟩ (lines i)).1).state)
      .Ready = .error .ProtocolTimeout := by
    apply expect_state_never
    intro j hcon
    rw [hph j] at hcon
    exact EngineStateEnum.noConfusion hcon
  rcases hE : expect_state obs1 .Initialized with e | a
  · cases e
    unfold start_uci
    rw [hE]
  · unfold start_uci
    rw [hE]
    exact h2

/-- C6 witness: with output lines `uciok` and `info depth 3` and no
`readyok`, the start protocol times out and the phase stays Initialized. -/
theorem start_uci_timeout_no_readyok_witness :
    start_uci (fun _ => .Uninitialized)
        (fun _ => ((run_reader ⟨.Initialized, none, []⟩
          ["uciok", "info depth 3"]).1).state) =
      .error .ProtocolTimeout ∧
    ∀ _i : Nat, ((run_reader (⟨.Initialized, none, []⟩ : EngState)
        ["uciok", "info depth 3"]).1).state = .Initialized :=
  start_uci_timeout_no_readyok (fun _ => .Uninitialized)
    (fun _ => ["uciok", "info depth 3"]) none []
    (by
      intro i l hl
      simp only [List.mem_cons, List.not_mem_nil, or_false] at hl
      rcases hl with rfl | rfl <;> decide)
